import Mathlib

/-!
Verification development for the knuckledragger proof-state engine
(`kdrag/tactics.py`): the `Goal` sequent model, the `Lemma` stack-based
tactic machine, the `Calc` transitive chain builder and the `prove`
orchestration wrapper.

The term algebra and the decision-procedure kernel are external to the
core (the repository consumes them through a narrow contract); they are
modelled here by a deep expression type together with an
evaluation-based validity checker for closed formulas.

Python object aliasing matters for the tactic machine (context lists of
goals are shared between a live `Lemma` and its pushed snapshots, and
`clear` mutates a context list in place), so goal contexts are
represented by references into an explicit store carried in the machine
state.
-/

namespace KD

/-- Sorts of the modelled term algebra: booleans, integers, and algebraic
datatype sorts carrying their constructor count. -/
inductive SortT
  | bool
  | int
  | dt (name : String) (numCtors : Nat)
deriving DecidableEq, Repr

mutual

/-- Deep embedding of the fragment of the external term algebra used by
the tactics code: boolean and integer literals, named constants, fresh
(herbrandized) constants, boolean combinators, order relations, universal
quantification and datatype recognizer applications. `and`/`or` are
n-ary, as in the SMT term algebra. -/
inductive Expr
  | boolVal (b : Bool)
  | intVal (i : Int)
  | const (name : String) (s : SortT)
  | freshConst (name : String) (s : SortT) (k : Nat)
  | not (e : Expr)
  | implies (a b : Expr)
  | and (args : ExprList)
  | or (args : ExprList)
  | eq (a b : Expr)
  | le (a b : Expr)
  | lt (a b : Expr)
  | ge (a b : Expr)
  | gt (a b : Expr)
  | forallE (vs : List (String × SortT)) (body : Expr)
  | recognizer (i : Nat) (t : Expr)
deriving DecidableEq, Repr

/-- Argument lists of the n-ary `and`/`or` combinators (a mutual list
type so that equality stays decidable). -/
inductive ExprList
  | nil
  | cons (e : Expr) (es : ExprList)
deriving DecidableEq, Repr

end

/-- Build an argument list from a Lean list. -/
def ExprList.ofList : List Expr → ExprList
  | [] => .nil
  | e :: es => .cons e (ExprList.ofList es)

/-- View an argument list as a Lean list. -/
def ExprList.toList : ExprList → List Expr
  | .nil => []
  | .cons e es => e :: ExprList.toList es

/-- Number of arguments (`num_args` on the SMT side). -/
def ExprList.length : ExprList → Nat
  | .nil => 0
  | .cons _ es => 1 + ExprList.length es

/-- The sort of an expression (relations and combinators are boolean). -/
def Expr.sort : Expr → SortT
  | .boolVal _ => .bool
  | .intVal _ => .int
  | .const _ s => s
  | .freshConst _ s _ => s
  | .not _ => .bool
  | .implies _ _ => .bool
  | .and _ => .bool
  | .or _ => .bool
  | .eq _ _ => .bool
  | .le _ _ => .bool
  | .lt _ _ => .bool
  | .ge _ _ => .bool
  | .gt _ _ => .bool
  | .forallE _ _ => .bool
  | .recognizer _ _ => .bool

/-- Values of closed expressions. -/
inductive Val
  | vb (b : Bool)
  | vi (i : Int)
deriving DecidableEq, Repr

mutual

/-- Evaluate a closed (constant- and quantifier-free) expression; `none`
when the expression contains constants, quantifiers or recognizers.
The empty `and` evaluates to true and the empty `or` to false, matching
the SMT term algebra. -/
def evalClosed : Expr → Option Val
  | .boolVal b => some (.vb b)
  | .intVal i => some (.vi i)
  | .const _ _ => none
  | .freshConst _ _ _ => none
  | .not e =>
    match evalClosed e with
    | some (.vb b) => some (.vb (!b))
    | _ => none
  | .implies a b =>
    match evalClosed a, evalClosed b with
    | some (.vb x), some (.vb y) => some (.vb (!x || y))
    | _, _ => none
  | .and args =>
    match evalAll args with
    | some bs => some (.vb (bs.all id))
    | none => none
  | .or args =>
    match evalAll args with
    | some bs => some (.vb (bs.any id))
    | none => none
  | .eq a b =>
    match evalClosed a, evalClosed b with
    | some (.vb x), some (.vb y) => some (.vb (x == y))
    | some (.vi x), some (.vi y) => some (.vb (x == y))
    | _, _ => none
  | .le a b =>
    match evalClosed a, evalClosed b with
    | some (.vi x), some (.vi y) => some (.vb (x ≤ y))
    | _, _ => none
  | .lt a b =>
    match evalClosed a, evalClosed b with
    | some (.vi x), some (.vi y) => some (.vb (x < y))
    | _, _ => none
  | .ge a b =>
    match evalClosed a, evalClosed b with
    | some (.vi x), some (.vi y) => some (.vb (x ≥ y))
    | _, _ => none
  | .gt a b =>
    match evalClosed a, evalClosed b with
    | some (.vi x), some (.vi y) => some (.vb (x > y))
    | _, _ => none
  | .forallE _ _ => none
  | .recognizer _ _ => none

/-- Evaluate an argument list of boolean expressions, failing if any
member fails to evaluate to a boolean. -/
def evalAll : ExprList → Option (List Bool)
  | .nil => some []
  | .cons e es =>
    match evalClosed e, evalAll es with
    | some (.vb b), some bs => some (b :: bs)
    | _, _ => none

end

/-- A certificate produced by the decision-procedure kernel: the formula
it asserts, plus the unverified ("admitted") taint mark. -/
structure Proof where
  thm : Expr
  unchecked : Bool
deriving DecidableEq, Repr

/-- Modelled from the spec: the external Decision Procedure
(`kd.kernel.prove`), which is not part of the source tree. Per the spec
it is given a target formula and already-certified supporting formulas
and "either returns a certificate that the implication holds, or fails
with a counterexample/timeout". Modelled as evaluation-based validity
for closed formulas (declining, like a timeout, on formulas it cannot
evaluate); the returned certificate states the target and is tainted
when any support certificate is. -/
def kernelProve (by_ : List Proof) (thm : Expr) : Option Proof :=
  match evalClosed (.implies (.and (ExprList.ofList (by_.map Proof.thm))) thm) with
  | some (.vb true) => some ⟨thm, by_.any Proof.unchecked⟩
  | _ => none

mutual

/-- Substitute expressions for named constants (used to open a binder;
shadowing by an inner binder of the same name is not modelled, as no
claim depends on it). -/
def substConsts (tbl : List ((String × SortT) × Expr)) : Expr → Expr
  | .boolVal b => .boolVal b
  | .intVal i => .intVal i
  | .const n s =>
    match tbl.find? (fun p => p.1 == (n, s)) with
    | some p => p.2
    | none => .const n s
  | .freshConst n s k => .freshConst n s k
  | .not e => .not (substConsts tbl e)
  | .implies a b => .implies (substConsts tbl a) (substConsts tbl b)
  | .and args => .and (substConstsL tbl args)
  | .or args => .or (substConstsL tbl args)
  | .eq a b => .eq (substConsts tbl a) (substConsts tbl b)
  | .le a b => .le (substConsts tbl a) (substConsts tbl b)
  | .lt a b => .lt (substConsts tbl a) (substConsts tbl b)
  | .ge a b => .ge (substConsts tbl a) (substConsts tbl b)
  | .gt a b => .gt (substConsts tbl a) (substConsts tbl b)
  | .forallE vs body => .forallE vs (substConsts tbl body)
  | .recognizer i t => .recognizer i (substConsts tbl t)

/-- `substConsts` mapped over an argument list. -/
def substConstsL (tbl : List ((String × SortT) × Expr)) : ExprList → ExprList
  | .nil => .nil
  | .cons e es => .cons (substConsts tbl e) (substConstsL tbl es)

end

/-- Modelled from the spec: the external kernel operation
`openUniversal` (`kd.kernel.herb`), not part of the source tree. Per the
spec it maps a universally quantified formula to fresh variables plus "a
Certificate relating original to opened body"; the tactics code reads
the opened body off `herb_lemma.thm.arg(0)`, so the certificate is an
implication whose antecedent is the opened body. A kernel-global fresh
counter is threaded through. -/
def herb (fresh : Nat) (vs : List (String × SortT)) (body : Expr) :
    List Expr × Proof × Nat :=
  let fvs := vs.enum.map (fun p => Expr.freshConst p.2.1 p.2.2 (fresh + p.1))
  let opened := substConsts (vs.zip fvs) body
  (fvs, ⟨.implies opened (.forallE vs body), false⟩, fresh + vs.length)

/-- `thm.arg(0)` on an implication-shaped certificate. -/
def Expr.implArg0 : Expr → Expr
  | .implies a _ => a
  | e => e

/-- A reference to a Python context-list object: either a cell of the
machine store (a list that tactics may share and `clear` may mutate in
place) or an immutable literal list (used only for the `Goal.empty`
sentinel, whose fresh empty list is never referenced by the machine). -/
inductive CtxRef
  | heap (i : Nat)
  | lit (l : List Expr)
deriving DecidableEq, Repr

/-- Read the context list a reference denotes. -/
def CtxRef.deref (store : List (List Expr)) : CtxRef → List Expr
  | .heap i => store.getD i []
  | .lit l => l

/-- Reference validity: heap references must point into the store. -/
def CtxRef.wfb (storeLen : Nat) : CtxRef → Bool
  | .heap i => decide (i < storeLen)
  | .lit _ => true

/-- The `Goal` named tuple: fresh-variable signature, hypothesis
context (a reference to a shared list object) and target. -/
structure Goal where
  sig : List Expr
  ctx : CtxRef
  goal : Expr
deriving DecidableEq, Repr

/-- The sentinel target `Or(BoolVal(True), Bool("KNUCKLEDRAGGER_EMPTYGOAL"))`:
trivial and specially marked. -/
def emptyGoalMarker : Expr :=
  .or (.cons (.boolVal true) (.cons (.const "KNUCKLEDRAGGER_EMPTYGOAL" .bool) .nil))

/-- `Goal.empty()`: the canonical empty-goal sentinel. -/
def Goal.empty : Goal :=
  { sig := [], ctx := .lit [], goal := emptyGoalMarker }

/-- Python `==` on Goals: named-tuple comparison, which on SMT
expressions reduces to structural equality, and on the context compares
the referenced lists by value. -/
def Goal.eqIn (store : List (List Expr)) (g1 g2 : Goal) : Bool :=
  g1.sig == g2.sig && g1.ctx.deref store == g2.ctx.deref store && g1.goal == g2.goal

/-- `Goal.is_empty()`: comparison against a fresh `Goal.empty()`. -/
def Goal.is_empty (store : List (List Expr)) (g : Goal) : Bool :=
  Goal.eqIn store g Goal.empty

/-- The `Lemma` tactic machine state: the context-list store (the part
of the Python heap the machine can alias and mutate), the original
statement, the goal stack, the collected certificates, the chain of
pushed snapshots (each a shallow copy of goal stack and certificate
list, sharing context references with the live state), and the
kernel-global fresh-variable counter. -/
structure Lemma where
  heap : List (List Expr)
  thm : Expr
  goals : List Goal
  lemmas : List Proof
  pushed : List (List Goal × List Proof)
  fresh : Nat
deriving DecidableEq, Repr

/-- Result of a tactic call: success or a raised exception, each
carrying the machine state after the call (Python mutates in place, so
a failed call can leave a changed state). -/
inductive TRes (α : Type)
  | ok (m : Lemma) (val : α)
  | err (msg : String) (m : Lemma)
deriving DecidableEq

/-- The machine state a tactic call left behind, whether it succeeded
or raised. -/
def TRes.state {α : Type} : TRes α → Lemma
  | .ok m _ => m
  | .err _ m => m

/-- Forward a tactic result, converting the returned value (used where
a tactic returns another tactic's result). -/
def TRes.mapVal {α β : Type} (f : α → β) : TRes α → TRes β
  | .ok m v => .ok m (f v)
  | .err msg m => .err msg m

/-- `Lemma.__init__`: one initial goal with empty signature and a fresh
empty context list, target the stated formula. -/
def Lemma.init (goal : Expr) : Lemma :=
  { heap := [[]], thm := goal,
    goals := [{ sig := [], ctx := .heap 0, goal := goal }],
    lemmas := [], pushed := [], fresh := 0 }

/-- Allocate a fresh context-list object in the store. -/
def Lemma.alloc (m : Lemma) (l : List Expr) : Lemma × CtxRef :=
  ({ m with heap := m.heap ++ [l] }, .heap m.heap.length)

/-- `Lemma.top_goal`: the current goal, or the sentinel when the stack
is empty. -/
def Lemma.top_goal (m : Lemma) : Goal :=
  match m.goals.getLast? with
  | none => Goal.empty
  | some g => g

/-- `Lemma.copy`: a fresh machine with shallow copies of the goal stack
and certificate list (the Goal tuples still share context-list objects
with the original) and no pushed stack. -/
def Lemma.copy (m : Lemma) : Lemma :=
  { m with pushed := [] }

/-- `Lemma.push`: snapshot the goal stack and certificate list onto the
pushed chain (`cpy = self.copy(); cpy.pushed = self.pushed;
self.pushed = cpy`); returns `self.top_goal()`, which callers using
this model read off separately. -/
def Lemma.push (m : Lemma) : Lemma :=
  { m with pushed := (m.goals, m.lemmas) :: m.pushed }

/-- `Lemma.pop`: restore the goal stack and certificate list saved by
the most recent push; the Python `assert self.pushed is not None` fails
when no snapshot exists. -/
def Lemma.pop (m : Lemma) : TRes Goal :=
  match m.pushed with
  | [] => .err "AssertionError" m
  | (gs, ls) :: rest =>
    let m1 : Lemma := { m with goals := gs, lemmas := ls, pushed := rest }
    .ok m1 m1.top_goal

/-- `Lemma.fixes`: open a universally quantified target into fresh
signature variables, recording the Herbrand certificate; fails (with
the state unchanged) when the target is not universal. -/
def Lemma.fixes (m : Lemma) : TRes (List Expr) :=
  match m.goals.getLast? with
  | none => .err "IndexError" m
  | some goalctx =>
    match goalctx.goal with
    | .forallE vs body =>
      let goals1 := m.goals.dropLast
      let res := herb m.fresh vs body
      let newGoal : Goal :=
        { goalctx with sig := goalctx.sig ++ res.1, goal := res.2.1.thm.implArg0 }
      .ok { m with goals := goals1 ++ [newGoal],
                   lemmas := m.lemmas ++ [res.2.1],
                   fresh := res.2.2 } res.1
    | _ => .err "fixes tactic failed. Not a forall" m

/-- `Lemma.fix`: open a single-variable universal; when the quantifier
binds more than one variable the error is raised only after `fixes` has
already mutated the state. -/
def Lemma.fix (m : Lemma) : TRes Expr :=
  match m.fixes with
  | .err msg m1 => .err msg m1
  | .ok m1 vs =>
    if vs.length > 1 then
      .err "fix tactic failed. More than one variable in quantifier" m1
    else
      match vs with
      | v :: _ => .ok m1 v
      | [] => .err "IndexError" m1

/-- `Lemma.intros`: universal targets delegate to `fixes`; otherwise the
top goal is popped first and then dispatched on shape (implication,
negation, or classically unwound `Or(Not(a), ...)`), so a shape mismatch
raises with the goal already removed. -/
def Lemma.intros (m : Lemma) : TRes Unit :=
  let goalctx := m.top_goal
  let goal := goalctx.goal
  let ctx := goalctx.ctx.deref m.heap
  match goal with
  | .forallE _ _ => (m.fixes).mapVal (fun _ => ())
  | _ =>
    match m.goals.getLast? with
    | none => .err "IndexError" m
    | some _ =>
      let goals1 := m.goals.dropLast
      match goal with
      | .implies a b =>
        let res := Lemma.alloc { m with goals := goals1 } (ctx ++ [a])
        .ok { res.1 with goals := res.1.goals ++ [{ goalctx with ctx := res.2, goal := b }] } ()
      | .not a =>
        let res := Lemma.alloc { m with goals := goals1 } (ctx ++ [a])
        .ok { res.1 with
              goals := res.1.goals ++ [{ goalctx with ctx := res.2, goal := .boolVal false }] } ()
      | .or (.cons (.not a) rest) =>
        if (ExprList.cons (.not a) rest).length == 2 then
          match rest with
          | .cons b _ =>
            let res := Lemma.alloc { m with goals := goals1 } (ctx ++ [a])
            .ok { res.1 with goals := res.1.goals ++ [{ goalctx with ctx := res.2, goal := b }] } ()
          | .nil => .err "IndexError" { m with goals := goals1 }
        else
          let res := Lemma.alloc { m with goals := goals1 } (ctx ++ [a])
          .ok { res.1 with
                goals := res.1.goals ++ [{ goalctx with ctx := res.2, goal := .or rest }] } ()
      | _ => .err "Intros failed." { m with goals := goals1 }

/-- `Lemma.cases`: boolean scrutinees branch on `t == True` /
`t == False` (the false branch pushed last, hence on top); datatype
scrutinees branch per constructor, pushed in reversed order so that
constructor 0 ends on top; any other sort fails with the state
unchanged. -/
def Lemma.cases (m : Lemma) (t : Expr) : TRes Goal :=
  let goalctx := m.top_goal
  let ctx := goalctx.ctx.deref m.heap
  if t.sort == .bool then
    match m.goals.getLast? with
    | none => .err "IndexError" m
    | some _ =>
      let goals1 := m.goals.dropLast
      let cellT := ctx ++ [.eq t (.boolVal true)]
      let cellF := ctx ++ [.eq t (.boolVal false)]
      let m1 : Lemma := { m with
        heap := m.heap ++ [cellT, cellF],
        goals := goals1 ++ [{ goalctx with ctx := .heap m.heap.length },
                            { goalctx with ctx := .heap (m.heap.length + 1) }] }
      .ok m1 m1.top_goal
  else
    match t.sort with
    | .dt _ k =>
      match m.goals.getLast? with
      | none => .err "IndexError" m
      | some _ =>
        let goals1 := m.goals.dropLast
        -- iteration j of `for i in reversed(range(k))` handles constructor
        -- i = k - 1 - j, allocating a fresh context list per branch
        let m1 : Lemma := { m with
          heap := m.heap ++
            (List.range k).map
              (fun j => ctx ++ [.eq (.recognizer (k - 1 - j) t) (.boolVal true)]),
          goals := goals1 ++
            (List.range k).map (fun j => { goalctx with ctx := CtxRef.heap (m.heap.length + j) }) }
        .ok m1 m1.top_goal
    | _ => .err "Cases failed. Not a bool or datatype" m

/-- `Lemma.assumption`: the goal is popped first; when the target
matches no context entry the error is raised with the goal already
removed. -/
def Lemma.assumption (m : Lemma) : TRes Goal :=
  match m.goals.getLast? with
  | none => .err "IndexError" m
  | some goalctx =>
    let m1 : Lemma := { m with goals := m.goals.dropLast }
    let ctx := goalctx.ctx.deref m.heap
    if ctx.any (fun h => goalctx.goal == h) then .ok m1 m1.top_goal
    else .err "Assumption tactic failed" m1

/-- `Lemma.clear`: `ctxgoal.ctx.pop(n)` mutates the context-list object
of the top goal in place; any snapshot sharing that object sees the
change. Python negative indices are not modelled. -/
def Lemma.clear (m : Lemma) (n : Nat) : TRes Goal :=
  match m.goals.getLast? with
  | none => .err "IndexError" m
  | some ctxgoal =>
    match ctxgoal.ctx with
    | .lit _ => .err "IndexError" m
    | .heap i =>
      let cell := m.heap.getD i []
      if n < cell.length then
        let m1 : Lemma := { m with heap := m.heap.set i (cell.eraseIdx n) }
        .ok m1 m1.top_goal
      else .err "IndexError" m

/-- The `admit` tactic (renamed here): pop the current goal and record
an unverified certificate for it (`kd.kernel.prove(goal, admit=True)`). -/
def Lemma.admitTac (m : Lemma) : TRes Goal :=
  match m.goals.getLast? with
  | none => .err "IndexError" m
  | some goalctx =>
    let m1 : Lemma := { m with goals := m.goals.dropLast,
                               lemmas := m.lemmas ++ [⟨goalctx.goal, true⟩] }
    .ok m1 m1.top_goal

/-- `Lemma.qed`: extend the caller-provided support with the collected
certificates and invoke the decision procedure on the original
statement; the goal stack is not consulted. -/
def Lemma.qed (m : Lemma) (by_ : List Proof) : Option Proof :=
  kernelProve (by_ ++ m.lemmas) m.thm

/-- The visible goal stack: each goal with its context list read
through the store. -/
def Lemma.visGoals (m : Lemma) : List (List Expr × List Expr × Expr) :=
  m.goals.map (fun g => (g.sig, g.ctx.deref m.heap, g.goal))

/-- The visible machine state: goal stack (contexts dereferenced) plus
collected certificates. -/
def Lemma.visible (m : Lemma) : List (List Expr × List Expr × Expr) × List Proof :=
  (m.visGoals, m.lemmas)

/-- All live goals hold valid store references. -/
def Lemma.refsWF (m : Lemma) : Bool :=
  m.goals.all (fun g => g.ctx.wfb m.heap.length)

/-- `Calc._Mode`: the chain relation modes (source enum order EQ, LE,
LT, GT, GE). -/
inductive CMode
  | EQ
  | LE
  | LT
  | GT
  | GE
deriving DecidableEq, Repr

/-- `Calc._Mode.trans`: the allowed mode transitions. -/
def CMode.trans (m y : CMode) : Bool :=
  if m == y || m == .EQ then true
  else
    if (m == .LE && y == .LT) || (m == .GE && y == .GT) then true
    else false

/-- `Calc._Mode.op`: the relation constructor of a mode. -/
def CMode.opE : CMode → Expr → Expr → Expr
  | .EQ => .eq
  | .LE => .le
  | .LT => .lt
  | .GT => .gt
  | .GE => .ge

/-- `Calc` chain state: chain variables (z3 constants, represented by
name and sort), initial left-hand side, intermediate term, assumptions,
the accumulated certificate (source field `lemma`, renamed `lem` as
`lemma` is a Lean keyword) and the current mode. -/
structure Calc where
  vars : List (String × SortT)
  lhs : Expr
  iterm : Expr
  assume : List Expr
  lem : Proof
  mode : CMode
deriving DecidableEq, Repr

/-- `Calc._forall`: wrap a body in the assumption implication (single
assumption used directly, several conjoined) and the chain quantifier. -/
def calcForall (vars : List (String × SortT)) (assume : List Expr) (body : Expr) : Expr :=
  let body1 :=
    if assume.length == 1 then .implies (assume.getD 0 (.boolVal true)) body
    else if assume.length > 1 then .implies (.and (ExprList.ofList assume)) body
    else body
  if vars.length == 0 then body1 else .forallE vars body1

/-- `Calc.__init__`: prove the reflexive seed
`forall vars, assumptions implies lhs == lhs`; fails if the kernel
declines. -/
def Calc.init (vars : List (String × SortT)) (lhs : Expr) (assume : List Expr) :
    Option Calc :=
  match kernelProve [] (calcForall vars assume (.eq lhs lhs)) with
  | some pf =>
    some { vars := vars, lhs := lhs, iterm := lhs, assume := assume, lem := pf, mode := .EQ }
  | none => none

/-- Result of a `Calc` step: the advanced chain, a `LemmaError` from the
illegal mode transition (`_set_mode`), or a kernel failure inside
`_lemma`. -/
inductive CalcRes
  | ok (c : Calc)
  | modeError
  | proveFailed
deriving DecidableEq, Repr

/-- `Calc._lemma`: discharge `current REL rhs` under the current mode,
combine it with the accumulated certificate, and advance the
intermediate term. -/
def Calc.lemmaStep (c : Calc) (rhs : Expr) (by_ : List Proof) : Option Calc :=
  match kernelProve by_ (calcForall c.vars c.assume (c.mode.opE c.iterm rhs)) with
  | none => none
  | some l =>
    match kernelProve [l, c.lem] (calcForall c.vars c.assume (c.mode.opE c.lhs rhs)) with
    | none => none
    | some pf => some { c with lem := pf, iterm := rhs }

/-- `Calc._set_mode`: raise unless the transition is allowed, else adopt
the new mode. -/
def Calc.setMode (c : Calc) (newmode : CMode) : Option Calc :=
  if c.mode.trans newmode then some { c with mode := newmode } else none

/-- `Calc.eq`: runs `_lemma` directly, with no `_set_mode` call. -/
def Calc.eq (c : Calc) (rhs : Expr) (by_ : List Proof) : CalcRes :=
  match c.lemmaStep rhs by_ with
  | some c1 => .ok c1
  | none => .proveFailed

/-- `Calc.le`: `_set_mode(LE)` then `_lemma`. -/
def Calc.le (c : Calc) (rhs : Expr) (by_ : List Proof) : CalcRes :=
  match c.setMode .LE with
  | none => .modeError
  | some c1 =>
    match c1.lemmaStep rhs by_ with
    | some c2 => .ok c2
    | none => .proveFailed

/-- `Calc.lt`: `_set_mode(LT)` then `_lemma`. -/
def Calc.lt (c : Calc) (rhs : Expr) (by_ : List Proof) : CalcRes :=
  match c.setMode .LT with
  | none => .modeError
  | some c1 =>
    match c1.lemmaStep rhs by_ with
    | some c2 => .ok c2
    | none => .proveFailed

/-- `Calc.ge`: `_set_mode(GE)` then `_lemma`. -/
def Calc.ge (c : Calc) (rhs : Expr) (by_ : List Proof) : CalcRes :=
  match c.setMode .GE with
  | none => .modeError
  | some c1 =>
    match c1.lemmaStep rhs by_ with
    | some c2 => .ok c2
    | none => .proveFailed

/-- `Calc.gt`: `_set_mode(GT)` then `_lemma`. -/
def Calc.gt (c : Calc) (rhs : Expr) (by_ : List Proof) : CalcRes :=
  match c.setMode .GT with
  | none => .modeError
  | some c1 =>
    match c1.lemmaStep rhs by_ with
    | some c2 => .ok c2
    | none => .proveFailed

/-- `Calc.qed`: report a performance event and return the accumulated
certificate; nothing is validated. -/
def Calc.qed (c : Calc) : Proof := c.lem

/-- Chains reachable through the public `Calc` interface. -/
inductive Calc.Reachable : Calc → Prop
  | init (vars : List (String × SortT)) (lhs : Expr) (assume : List Expr) (c : Calc) :
      Calc.init vars lhs assume = some c → Calc.Reachable c
  | eqStep (c : Calc) (rhs : Expr) (by_ : List Proof) (c1 : Calc) :
      Calc.Reachable c → Calc.eq c rhs by_ = .ok c1 → Calc.Reachable c1
  | leStep (c : Calc) (rhs : Expr) (by_ : List Proof) (c1 : Calc) :
      Calc.Reachable c → Calc.le c rhs by_ = .ok c1 → Calc.Reachable c1
  | ltStep (c : Calc) (rhs : Expr) (by_ : List Proof) (c1 : Calc) :
      Calc.Reachable c → Calc.lt c rhs by_ = .ok c1 → Calc.Reachable c1
  | geStep (c : Calc) (rhs : Expr) (by_ : List Proof) (c1 : Calc) :
      Calc.Reachable c → Calc.ge c rhs by_ = .ok c1 → Calc.Reachable c1
  | gtStep (c : Calc) (rhs : Expr) (by_ : List Proof) (c1 : Calc) :
      Calc.Reachable c → Calc.gt c rhs by_ = .ok c1 → Calc.Reachable c1

/-- `isinstance(thm, smt.QuantifierRef)` for the modelled fragment
(which contains only universal quantifiers). -/
def Expr.isQuantifier : Expr → Bool
  | .forallE _ _ => true
  | _ => false

/-- The quantifier-stripping loop of `prove`: repeatedly open the
outermost universal unhygienically (in the named representation used
here, unhygienic opening leaves the body unchanged). -/
def stripForalls : Expr → Expr
  | .forallE _ body => stripForalls body
  | e => e

/-- Outcome of the `prove` wrapper: a certificate, a `TimeoutError`,
the deliberate `Exception("Worked with quantifier stripped...")`, or a
re-raised kernel `LemmaError`. -/
inductive PResult
  | ok (pf : Proof)
  | timeoutErr
  | strippedWorked (pf : Proof)
  | lemmaErr
deriving DecidableEq, Repr

/-- The `prove` orchestration wrapper at its default `instan=None`,
`unfold=0` parameters (the unfold and instan preprocessing only extend
the support list before the kernel call, through external modules).
Whether the wall-clock budget was exhausted when the kernel failed is an
input flag, as real time is outside the model. On an in-budget failure
with a quantified target the kernel is retried on the stripped target:
a succeeding retry raises the deliberate exception carrying the
certificate, a failing retry propagates the kernel error. -/
def prove (thm : Expr) (by_ : List Proof) (overBudget : Bool) : PResult :=
  match kernelProve by_ thm with
  | some pf => .ok pf
  | none =>
    if overBudget then .timeoutErr
    else
      if thm.isQuantifier then
        match kernelProve by_ (stripForalls thm) with
        | some pf => .strippedWorked pf
        | none => .lemmaErr
      else .lemmaErr

/-- Whether a tactic call raised. -/
def TRes.isErr {α : Type} : TRes α → Bool
  | .ok _ _ => false
  | .err _ _ => true

/-- Whether a `Calc` step raised the illegal-mode-transition error. -/
def CalcRes.isModeError : CalcRes → Bool
  | .modeError => true
  | _ => false

/-- The target shapes `intros` can process: universal (delegated to
`fixes`), implication, negation, and a disjunction headed by a
negation. -/
def introShapeOk : Expr → Bool
  | .forallE _ _ => true
  | .implies _ _ => true
  | .not _ => true
  | .or (.cons (.not _) _) => true
  | _ => false

/-!  ## Helper lemmas  -/

theorem kernelProve_thm {by_ : List Proof} {t : Expr} {pf : Proof}
    (h : kernelProve by_ t = some pf) : pf.thm = t := by
  unfold kernelProve at h
  cases hv : evalClosed (.implies (.and (ExprList.ofList (by_.map Proof.thm))) t) with
  | none => rw [hv] at h; exact absurd h (by simp)
  | some v =>
    rw [hv] at h
    cases v with
    | vi i => exact absurd h (by simp)
    | vb b =>
      cases b with
      | false => exact absurd h (by simp)
      | true => simp at h; rw [← h]

theorem deref_append {store ext : List (List Expr)} {r : CtxRef}
    (h : r.wfb store.length = true) :
    r.deref (store ++ ext) = r.deref store := by
  cases r with
  | lit l => rfl
  | heap i =>
    simp only [CtxRef.wfb, decide_eq_true_eq] at h
    simp [CtxRef.deref, List.getD, List.getElem?_append_left h]

theorem getD_append_offset (pre l : List (List Expr)) (j : Nat) :
    (pre ++ l).getD (pre.length + j) [] = l.getD j [] := by
  have h1 : pre.length + j - pre.length = j := by omega
  simp [List.getD, List.getElem?_append_right (Nat.le_add_right pre.length j), h1]

/-!  ## Claim C1  -/

/-- Claim C1 counterexample: the claim "for every Lemma whose goal stack
is non-empty and that contains no admitted goals, qed fails rather than
returning a certificate" is false: the freshly initialized Lemma for
`BoolVal(True)` has one open goal and no certificates (so no admitted
ones), yet `qed` returns a certificate. -/
theorem C1_counterexample :
    (Lemma.init (.boolVal true)).goals.length = 1 ∧
    (Lemma.init (.boolVal true)).lemmas = [] ∧
    Lemma.qed (Lemma.init (.boolVal true)) [] = some ⟨.boolVal true, false⟩ :=
  ⟨rfl, rfl, rfl⟩

/-- Claim C1 (amended): `Lemma.qed` does not inspect the goal stack —
its result is invariant under replacing the goal stack with anything —
and it invokes the decision procedure on the original statement using
the collected certificates (appended to any caller-provided support); it
fails exactly when that single kernel call fails. -/
theorem C1_qed_ignores_goal_stack (m : Lemma) (gs : List Goal) (by_ : List Proof) :
    Lemma.qed { m with goals := gs } by_ = Lemma.qed m by_ ∧
    Lemma.qed m by_ = kernelProve (by_ ++ m.lemmas) m.thm :=
  ⟨rfl, rfl⟩

/-!  ## Claim C8  -/

/-- Claim C8 (amended): `Goal.is_empty` holds exactly when the goal has
an empty signature, an empty (dereferenced) context and the sentinel
target `Or(True, KNUCKLEDRAGGER_EMPTYGOAL)` — i.e. exactly when it
equals the sentinel field-wise; the marker is a convention, not an
unforgeable tag. -/
theorem C8_is_empty_iff (store : List (List Expr)) (g : Goal) :
    Goal.is_empty store g = true ↔
      (g.sig = [] ∧ g.ctx.deref store = [] ∧ g.goal = emptyGoalMarker) := by
  simp [Goal.is_empty, Goal.eqIn, Goal.empty, CtxRef.deref, and_assoc]

/-- Claim C8 counterexample: the claim that `is_empty` "is never true
for any user-constructed Goal" is false: the initial goal of a `Lemma`
stated on the sentinel formula (a goal the user constructs through the
public interface, distinct from the `Goal.empty` value itself) satisfies
`is_empty`. -/
theorem C8_counterexample :
    Goal.is_empty (Lemma.init emptyGoalMarker).heap (Lemma.init emptyGoalMarker).top_goal
      = true ∧
    (Lemma.init emptyGoalMarker).top_goal ≠ Goal.empty := by
  decide

/-!  ## Claim C9  -/

/-- Claim C9: `push` snapshots the goal stack and certificate list,
`pop` restores the snapshot of the most recent push (so a push/pop pair
is the identity on the machine), repeated pushes restore in
last-in-first-out order, and `pop` with no snapshot fails leaving the
state unchanged. -/
theorem C9_push_pop_lifo (m : Lemma) :
    Lemma.pop (Lemma.push m) = .ok m m.top_goal ∧
    (Lemma.push m).pushed = (m.goals, m.lemmas) :: m.pushed ∧
    (Lemma.pop (Lemma.push (Lemma.push m))).state = Lemma.push m ∧
    (m.pushed = [] → Lemma.pop m = .err "AssertionError" m) := by
  refine ⟨rfl, rfl, rfl, ?_⟩
  intro h
  simp [Lemma.pop, h]

/-- Claim C9 witness: the push/pop law and the no-snapshot failure at a
concrete machine. -/
theorem C9_witness :
    Lemma.pop (Lemma.push (Lemma.init (.boolVal true)))
      = .ok (Lemma.init (.boolVal true)) (Lemma.init (.boolVal true)).top_goal ∧
    Lemma.pop (Lemma.init (.boolVal true))
      = .err "AssertionError" (Lemma.init (.boolVal true)) :=
  ⟨(C9_push_pop_lifo (Lemma.init (.boolVal true))).1,
   (C9_push_pop_lifo (Lemma.init (.boolVal true))).2.2.2 rfl⟩

/-!  ## Claim C10  -/

/-- Claim C10: on an empty goal stack `top_goal` returns the canonical
sentinel (for which `is_empty` holds) instead of raising, so inspecting
a fully discharged Lemma is safe. -/
theorem C10_top_goal_empty_stack (m : Lemma) (h : m.goals = []) :
    m.top_goal = Goal.empty ∧ Goal.is_empty m.heap m.top_goal = true := by
  have h1 : m.top_goal = Goal.empty := by simp [Lemma.top_goal, h]
  refine ⟨h1, ?_⟩
  rw [h1]
  simp [Goal.is_empty, Goal.eqIn, Goal.empty, CtxRef.deref]

/-- Claim C10 witness: a concrete fully discharged machine. -/
theorem C10_witness :
    ({ Lemma.init (.boolVal true) with goals := [] } : Lemma).top_goal = Goal.empty ∧
    Goal.is_empty ({ Lemma.init (.boolVal true) with goals := [] } : Lemma).heap
      ({ Lemma.init (.boolVal true) with goals := [] } : Lemma).top_goal = true :=
  C10_top_goal_empty_stack { Lemma.init (.boolVal true) with goals := [] } rfl

/-!  ## Claim C4  -/

/-- The chain reached after `Calc.init([], 0, [])`. -/
def calcEQ0 : Calc :=
  { vars := [], lhs := .intVal 0, iterm := .intVal 0, assume := [],
    lem := ⟨.eq (.intVal 0) (.intVal 0), false⟩, mode := .EQ }

/-- The chain reached after a further `le(0)` step. -/
def calcLE0 : Calc :=
  { vars := [], lhs := .intVal 0, iterm := .intVal 0, assume := [],
    lem := ⟨.le (.intVal 0) (.intVal 0), false⟩, mode := .LE }

/-- Claim C4 counterexample: the claim that "an eq step (mode EQ) issued
while the current mode is LE, LT, GE, or GT is a failing cross-mode
transition" is false: on the concrete chain reached by `init` then
`le(0)` (mode LE), `eq(1)` does not raise a ModeError — it succeeds,
advancing the chain with the current LE relation and leaving the mode
LE. -/
theorem C4_counterexample :
    Calc.init [] (.intVal 0) [] = some calcEQ0 ∧
    Calc.le calcEQ0 (.intVal 0) [] = .ok calcLE0 ∧
    Calc.eq calcLE0 (.intVal 1) [] =
      .ok { calcLE0 with iterm := .intVal 1, lem := ⟨.le (.intVal 0) (.intVal 1), false⟩ } := by
  decide

/-- Claim C4 (amended): the transition table is exactly as claimed
(a step mode is permitted from the current mode when they agree, the
current mode is EQ, LE tightens to LT, or GE tightens to GT), and the
`le`/`lt`/`ge`/`gt` steps raise the ModeError exactly when the table
forbids the transition; `eq` however performs no mode check at all (it
never raises a ModeError — it runs a step with whatever relation the
current mode holds). -/
theorem C4_mode_lattice :
    (∀ m y : CMode, CMode.trans m y =
      ((y == m) || (m == CMode.EQ) || (m == CMode.LE && y == CMode.LT) ||
        (m == CMode.GE && y == CMode.GT))) ∧
    (∀ (c : Calc) (rhs : Expr) (by_ : List Proof),
      (Calc.le c rhs by_).isModeError = !(c.mode.trans .LE) ∧
      (Calc.lt c rhs by_).isModeError = !(c.mode.trans .LT) ∧
      (Calc.ge c rhs by_).isModeError = !(c.mode.trans .GE) ∧
      (Calc.gt c rhs by_).isModeError = !(c.mode.trans .GT) ∧
      (Calc.eq c rhs by_).isModeError = false) := by
  constructor
  · intro m y
    cases m <;> cases y <;> rfl
  · intro c rhs by_
    refine ⟨?_, ?_, ?_, ?_, ?_⟩
    · cases h : c.mode.trans .LE with
      | false => simp [Calc.le, Calc.setMode, h, CalcRes.isModeError]
      | true =>
        cases hs : Calc.lemmaStep { c with mode := CMode.LE } rhs by_ <;>
          simp [Calc.le, Calc.setMode, h, hs, CalcRes.isModeError]
    · cases h : c.mode.trans .LT with
      | false => simp [Calc.lt, Calc.setMode, h, CalcRes.isModeError]
      | true =>
        cases hs : Calc.lemmaStep { c with mode := CMode.LT } rhs by_ <;>
          simp [Calc.lt, Calc.setMode, h, hs, CalcRes.isModeError]
    · cases h : c.mode.trans .GE with
      | false => simp [Calc.ge, Calc.setMode, h, CalcRes.isModeError]
      | true =>
        cases hs : Calc.lemmaStep { c with mode := CMode.GE } rhs by_ <;>
          simp [Calc.ge, Calc.setMode, h, hs, CalcRes.isModeError]
    · cases h : c.mode.trans .GT with
      | false => simp [Calc.gt, Calc.setMode, h, CalcRes.isModeError]
      | true =>
        cases hs : Calc.lemmaStep { c with mode := CMode.GT } rhs by_ <;>
          simp [Calc.gt, Calc.setMode, h, hs, CalcRes.isModeError]
    · cases hs : Calc.lemmaStep c rhs by_ <;>
        simp [Calc.eq, hs, CalcRes.isModeError]

/-!  ## Claim C5  -/

theorem lemmaStep_spec {c : Calc} {rhs : Expr} {by_ : List Proof} {c1 : Calc}
    (h : Calc.lemmaStep c rhs by_ = some c1) :
    c1.vars = c.vars ∧ c1.assume = c.assume ∧ c1.lhs = c.lhs ∧ c1.mode = c.mode ∧
    c1.iterm = rhs ∧
    c1.lem.thm = calcForall c.vars c.assume (c.mode.opE c.lhs rhs) := by
  unfold Calc.lemmaStep at h
  split at h
  · exact absurd h (by simp)
  · rename_i l h1
    split at h
    · exact absurd h (by simp)
    · rename_i pf h2
      simp only [Option.some.injEq] at h
      subst h
      exact ⟨rfl, rfl, rfl, rfl, rfl, kernelProve_thm h2⟩

theorem setModeStep_spec {c : Calc} {newmode : CMode} {rhs : Expr} {by_ : List Proof}
    {c1 : Calc}
    (h : (match Calc.setMode c newmode with
          | none => CalcRes.modeError
          | some cm =>
            match cm.lemmaStep rhs by_ with
            | some c2 => CalcRes.ok c2
            | none => CalcRes.proveFailed) = CalcRes.ok c1) :
    c1.vars = c.vars ∧ c1.assume = c.assume ∧ c1.lhs = c.lhs ∧ c1.mode = newmode ∧
    c1.iterm = rhs ∧
    c1.lem.thm = calcForall c.vars c.assume (newmode.opE c.lhs rhs) := by
  split at h
  · exact absurd h (by simp)
  · rename_i cm hcm
    unfold Calc.setMode at hcm
    split at hcm
    · simp only [Option.some.injEq] at hcm
      subst hcm
      split at h
      · rename_i c2 hs
        simp only [CalcRes.ok.injEq] at h
        subst h
        exact lemmaStep_spec hs
      · exact absurd h (by simp)
    · exact absurd hcm (by simp)

/-- Claim C5 counterexample: the claim that `Calc.qed` "validates that
the claimed start term and relation mode have been reached, and then
returns the accumulated certificate, which certifies [the chain
relation]" is false at a concrete chain state (one a Python caller can
produce by assigning the public attributes) whose stored certificate
asserts only `True`: `qed` raises nothing and returns that certificate,
which does not certify the chain relation `0 < 1`. -/
theorem C5_counterexample :
    Calc.qed { vars := [], lhs := .intVal 0, iterm := .intVal 1, assume := [],
               lem := ⟨.boolVal true, false⟩, mode := .LT }
      = ⟨.boolVal true, false⟩ ∧
    ((Calc.qed { vars := [], lhs := .intVal 0, iterm := .intVal 1, assume := [],
                 lem := ⟨.boolVal true, false⟩, mode := .LT }).thm
      == calcForall [] [] (CMode.opE .LT (.intVal 0) (.intVal 1))) = false := by
  decide

/-- Claim C5 (amended): `Calc.qed` performs no validation — it
unconditionally returns the accumulated certificate — and for every
chain reachable through the public interface that certificate certifies
that the assumptions imply, for all chain variables, that the initial
left-hand side stands in the chain's current mode relation to the
current term. -/
theorem C5_qed_certificate (c : Calc) (h : Calc.Reachable c) :
    Calc.qed c = c.lem ∧
    (Calc.qed c).thm = calcForall c.vars c.assume (c.mode.opE c.lhs c.iterm) := by
  refine ⟨rfl, ?_⟩
  unfold Calc.qed
  cases h with
  | init vars lhs assume c0 hinit =>
    unfold Calc.init at hinit
    split at hinit
    · rename_i pf hk
      simp only [Option.some.injEq] at hinit
      subst hinit
      exact kernelProve_thm hk
    · exact absurd hinit (by simp)
  | eqStep c0 rhs by_ c1 hr heq =>
    unfold Calc.eq at heq
    split at heq
    · rename_i c2 hs
      simp only [CalcRes.ok.injEq] at heq
      subst heq
      obtain ⟨h1, h2, h3, h4, h5, h6⟩ := lemmaStep_spec hs
      rw [h6, h1, h2, h3, h4, h5]
    · exact absurd heq (by simp)
  | leStep c0 rhs by_ c1 hr heq =>
    unfold Calc.le at heq
    obtain ⟨h1, h2, h3, h4, h5, h6⟩ := setModeStep_spec heq
    rw [h1, h2, h3, h4, h5, h6]
  | ltStep c0 rhs by_ c1 hr heq =>
    unfold Calc.lt at heq
    obtain ⟨h1, h2, h3, h4, h5, h6⟩ := setModeStep_spec heq
    rw [h1, h2, h3, h4, h5, h6]
  | geStep c0 rhs by_ c1 hr heq =>
    unfold Calc.ge at heq
    obtain ⟨h1, h2, h3, h4, h5, h6⟩ := setModeStep_spec heq
    rw [h1, h2, h3, h4, h5, h6]
  | gtStep c0 rhs by_ c1 hr heq =>
    unfold Calc.gt at heq
    obtain ⟨h1, h2, h3, h4, h5, h6⟩ := setModeStep_spec heq
    rw [h1, h2, h3, h4, h5, h6]

/-- Claim C5 witness: the certificate invariant read off a concrete
reachable chain. -/
theorem C5_witness :
    Calc.qed calcEQ0 = calcEQ0.lem ∧
    (Calc.qed calcEQ0).thm
      = calcForall calcEQ0.vars calcEQ0.assume
          (calcEQ0.mode.opE calcEQ0.lhs calcEQ0.iterm) :=
  C5_qed_certificate calcEQ0 (Calc.Reachable.init [] (.intVal 0) [] calcEQ0 (by decide))

/-!  ## Claim C6  -/

/-- Claim C6: when the kernel call fails within the budget and the
target is quantified, `prove` retries once on the quantifier-stripped
target purely for diagnostics: whatever that retry returns, `prove`
raises (the deliberate "worked with quantifier stripped" exception on
retry success, the kernel error otherwise) — it never returns a
certificate from the retry. -/
theorem C6_retry_never_proves (thm : Expr) (by_ : List Proof)
    (hfail : kernelProve by_ thm = none) (hq : thm.isQuantifier = true) :
    prove thm by_ false =
      (match kernelProve by_ (stripForalls thm) with
        | some pf => PResult.strippedWorked pf
        | none => PResult.lemmaErr) ∧
    ∀ pf : Proof, prove thm by_ false ≠ PResult.ok pf := by
  have h1 : prove thm by_ false =
      (match kernelProve by_ (stripForalls thm) with
        | some pf => PResult.strippedWorked pf
        | none => PResult.lemmaErr) := by
    simp [prove, hfail, hq]
  refine ⟨h1, ?_⟩
  intro pf
  rw [h1]
  cases kernelProve by_ (stripForalls thm) <;> simp

/-- Claim C6 witness: a concrete quantified target the kernel declines;
both the original call and the stripped retry fail, and `prove` raises
the kernel error. -/
theorem C6_witness :
    prove (.forallE [("x", .bool)] (.const "x" .bool)) [] false = PResult.lemmaErr := by
  have h := (C6_retry_never_proves (.forallE [("x", .bool)] (.const "x" .bool)) [] rfl rfl).1
  rw [h]
  rfl

/-!  ## Claim C2  -/

/-- Claim C2 counterexample: the claim that a failed tactic call leaves
the goal stack and certificate list exactly as before is false:
`assumption` on the initial Lemma for the atom `p` (whose context is
empty, so no match exists) raises, yet the goal stack went from one
entry to none. -/
theorem C2_counterexample :
    (Lemma.assumption (Lemma.init (.const "p" .bool))).isErr = true ∧
    (Lemma.assumption (Lemma.init (.const "p" .bool))).state.goals = [] ∧
    (Lemma.init (.const "p" .bool)).goals.length = 1 := by
  decide

/-- Claim C2 (amended): failed tactic calls are not all-or-nothing.
`intros` on a goal whose target matches none of its shapes raises with
the top goal already removed (everything else unchanged); `fix` on a
universal binding more than one variable raises only after `fixes` has
already transformed the state, which is kept; `assumption` with no
matching context entry raises with the top goal already removed.
(`fixes` itself, by contrast, checks its precondition before mutating.) -/
theorem C2_failed_tactics_mutate :
    (∀ (m : Lemma) (gs : List Goal) (g : Goal), m.goals = gs ++ [g] →
        introShapeOk g.goal = false →
        Lemma.intros m = .err "Intros failed." { m with goals := gs }) ∧
    (∀ (m m1 : Lemma) (vs : List Expr), Lemma.fixes m = .ok m1 vs → vs.length > 1 →
        Lemma.fix m = .err "fix tactic failed. More than one variable in quantifier" m1) ∧
    (∀ (m : Lemma) (gs : List Goal) (g : Goal), m.goals = gs ++ [g] →
        (g.ctx.deref m.heap).any (fun h => g.goal == h) = false →
        Lemma.assumption m = .err "Assumption tactic failed" { m with goals := gs }) := by
  refine ⟨?_, ?_, ?_⟩
  · intro m gs g hgoals hshape
    have htop : m.top_goal = g := by simp [Lemma.top_goal, hgoals]
    unfold Lemma.intros
    rw [htop, hgoals]
    simp only [List.getLast?_concat, List.dropLast_concat]
    split
    · simp_all [introShapeOk]
    · split
      · simp_all [introShapeOk]
      · simp_all [introShapeOk]
      · simp_all [introShapeOk]
      · rfl
  · intro m m1 vs hfixes hlen
    unfold Lemma.fix
    rw [hfixes]
    simp [hlen]
  · intro m gs g hgoals hany
    unfold Lemma.assumption
    rw [hgoals]
    simp only [List.getLast?_concat, List.dropLast_concat]
    simp [hany]

/-- Claim C2 witness: the three mutation behaviours at concrete
machines — a goal `0 == 0` for intros, a two-variable universal for
fix, and the atom `p` with empty context for assumption. -/
theorem C2_witness :
    Lemma.intros (Lemma.init (.eq (.intVal 0) (.intVal 0)))
      = .err "Intros failed." { Lemma.init (.eq (.intVal 0) (.intVal 0)) with goals := [] } ∧
    Lemma.fix (Lemma.init (.forallE [("x", .int), ("y", .int)] (.boolVal true)))
      = .err "fix tactic failed. More than one variable in quantifier"
          { heap := [[]],
            thm := .forallE [("x", .int), ("y", .int)] (.boolVal true),
            goals := [{ sig := [.freshConst "x" .int 0, .freshConst "y" .int 1],
                        ctx := .heap 0, goal := .boolVal true }],
            lemmas := [⟨.implies (.boolVal true)
                          (.forallE [("x", .int), ("y", .int)] (.boolVal true)), false⟩],
            pushed := [], fresh := 2 } ∧
    Lemma.assumption (Lemma.init (.const "p" .bool))
      = .err "Assumption tactic failed" { Lemma.init (.const "p" .bool) with goals := [] } :=
  ⟨C2_failed_tactics_mutate.1 (Lemma.init (.eq (.intVal 0) (.intVal 0))) []
      { sig := [], ctx := .heap 0, goal := .eq (.intVal 0) (.intVal 0) } rfl rfl,
   C2_failed_tactics_mutate.2.1 (Lemma.init (.forallE [("x", .int), ("y", .int)] (.boolVal true)))
      { heap := [[]],
        thm := .forallE [("x", .int), ("y", .int)] (.boolVal true),
        goals := [{ sig := [.freshConst "x" .int 0, .freshConst "y" .int 1],
                    ctx := .heap 0, goal := .boolVal true }],
        lemmas := [⟨.implies (.boolVal true)
                      (.forallE [("x", .int), ("y", .int)] (.boolVal true)), false⟩],
        pushed := [], fresh := 2 }
      [.freshConst "x" .int 0, .freshConst "y" .int 1] (by decide) (by decide),
   C2_failed_tactics_mutate.2.2 (Lemma.init (.const "p" .bool)) []
      { sig := [], ctx := .heap 0, goal := .const "p" .bool } rfl rfl⟩

/-!  ## Claim C7  -/

/-- Claim C7 counterexample: the claim that "branch 0 becomes the new
top of stack" is false for boolean scrutinees: after `cases` on the
boolean `b`, the processed-first top goal carries the hypothesis
`b == False`, not the first-listed branch hypothesis `b == True`. -/
theorem C7_counterexample :
    ((Lemma.cases (Lemma.init (.boolVal true)) (.const "b" .bool)).state.top_goal.ctx.deref
        (Lemma.cases (Lemma.init (.boolVal true)) (.const "b" .bool)).state.heap)
      = [.eq (.const "b" .bool) (.boolVal false)] ∧
    ([Expr.eq (.const "b" .bool) (.boolVal false)]
      ≠ [Expr.eq (.const "b" .bool) (.boolVal true)]) := by
  decide

/-- Claim C7 (amended): `cases` on a boolean duplicates the goal into a
`term == True` branch and a `term == False` branch, with the False
branch pushed last and hence on top (processed first); on a sum-typed
(datatype) value it duplicates into one branch per constructor with the
matching recognizer hypothesis, pushed in reversed order so that
constructor 0 ends on top; any other sort fails with the state exactly
unchanged. -/
theorem C7_cases_branches :
    (∀ (m : Lemma) (gs : List Goal) (g : Goal) (t : Expr),
        m.goals = gs ++ [g] → t.sort = .bool → m.refsWF = true →
        Lemma.cases m t =
          .ok { m with
                heap := m.heap ++ [g.ctx.deref m.heap ++ [.eq t (.boolVal true)],
                                   g.ctx.deref m.heap ++ [.eq t (.boolVal false)]],
                goals := gs ++ [{ g with ctx := .heap m.heap.length },
                                { g with ctx := .heap (m.heap.length + 1) }] }
             { g with ctx := .heap (m.heap.length + 1) } ∧
        (Lemma.cases m t).state.visGoals =
          gs.map (fun g2 => (g2.sig, g2.ctx.deref m.heap, g2.goal)) ++
            [(g.sig, g.ctx.deref m.heap ++ [.eq t (.boolVal true)], g.goal),
             (g.sig, g.ctx.deref m.heap ++ [.eq t (.boolVal false)], g.goal)]) ∧
    (∀ (m : Lemma) (gs : List Goal) (g : Goal) (t : Expr) (dn : String) (k : Nat),
        m.goals = gs ++ [g] → t.sort = .dt dn k → m.refsWF = true →
        (Lemma.cases m t).isErr = false ∧
        (Lemma.cases m t).state.visGoals =
          gs.map (fun g2 => (g2.sig, g2.ctx.deref m.heap, g2.goal)) ++
            (List.range k).map (fun j =>
              (g.sig, g.ctx.deref m.heap ++
                 [.eq (.recognizer (k - 1 - j) t) (.boolVal true)], g.goal))) ∧
    (∀ (m : Lemma) (t : Expr), t.sort = .int →
        Lemma.cases m t = .err "Cases failed. Not a bool or datatype" m) := by
  refine ⟨?_, ?_, ?_⟩
  · intro m gs g t hgoals ht hwf
    have htop : m.top_goal = g := by simp [Lemma.top_goal, hgoals]
    have hsplit : ∀ (x y : Goal), gs ++ [x, y] = (gs ++ [x]) ++ [y] := by simp
    have hcases : Lemma.cases m t =
        .ok { m with
              heap := m.heap ++ [g.ctx.deref m.heap ++ [.eq t (.boolVal true)],
                                 g.ctx.deref m.heap ++ [.eq t (.boolVal false)]],
              goals := gs ++ [{ g with ctx := .heap m.heap.length },
                              { g with ctx := .heap (m.heap.length + 1) }] }
           { g with ctx := .heap (m.heap.length + 1) } := by
      unfold Lemma.cases
      rw [htop, hgoals]
      simp only [ht, List.getLast?_concat, List.dropLast_concat]
      simp only [Lemma.top_goal]
      rw [hsplit, List.getLast?_concat]
      simp
    refine ⟨hcases, ?_⟩
    rw [hcases]
    simp only [TRes.state, Lemma.visGoals]
    rw [List.map_append]
    congr 1
    · apply List.map_congr_left
      intro g2 hg2
      have hwf2 : g2.ctx.wfb m.heap.length = true :=
        List.all_eq_true.mp hwf g2 (by rw [hgoals]; exact List.mem_append_left _ hg2)
      rw [deref_append hwf2]
    · simp only [List.map_cons, List.map_nil]
      have h0 : CtxRef.deref
          (m.heap ++ [g.ctx.deref m.heap ++ [.eq t (.boolVal true)],
                      g.ctx.deref m.heap ++ [.eq t (.boolVal false)]])
          (.heap m.heap.length)
          = g.ctx.deref m.heap ++ [.eq t (.boolVal true)] := by
        show (m.heap ++ _).getD (m.heap.length) [] = _
        have := getD_append_offset m.heap
          [g.ctx.deref m.heap ++ [.eq t (.boolVal true)],
           g.ctx.deref m.heap ++ [.eq t (.boolVal false)]] 0
        simpa using this
      have h1 : CtxRef.deref
          (m.heap ++ [g.ctx.deref m.heap ++ [.eq t (.boolVal true)],
                      g.ctx.deref m.heap ++ [.eq t (.boolVal false)]])
          (.heap (m.heap.length + 1))
          = g.ctx.deref m.heap ++ [.eq t (.boolVal false)] := by
        show (m.heap ++ _).getD (m.heap.length + 1) [] = _
        have := getD_append_offset m.heap
          [g.ctx.deref m.heap ++ [.eq t (.boolVal true)],
           g.ctx.deref m.heap ++ [.eq t (.boolVal false)]] 1
        simpa using this
      rw [h0, h1]
  · intro m gs g t dn k hgoals ht hwf
    have htop : m.top_goal = g := by simp [Lemma.top_goal, hgoals]
    have hne : (t.sort == SortT.bool) = false := by rw [ht]; rfl
    have hcases : Lemma.cases m t =
        .ok { m with
              heap := m.heap ++ (List.range k).map
                (fun j => g.ctx.deref m.heap ++
                  [.eq (.recognizer (k - 1 - j) t) (.boolVal true)]),
              goals := gs ++ (List.range k).map
                (fun j => { g with ctx := CtxRef.heap (m.heap.length + j) }) }
          (Lemma.top_goal { m with
              heap := m.heap ++ (List.range k).map
                (fun j => g.ctx.deref m.heap ++
                  [.eq (.recognizer (k - 1 - j) t) (.boolVal true)]),
              goals := gs ++ (List.range k).map
                (fun j => { g with ctx := CtxRef.heap (m.heap.length + j) }) }) := by
      unfold Lemma.cases
      rw [htop, hgoals]
      simp only [hne, Bool.false_eq_true, if_false, ht, List.getLast?_concat,
        List.dropLast_concat]
      rfl
    refine ⟨by rw [hcases]; rfl, ?_⟩
    rw [hcases]
    simp only [TRes.state, Lemma.visGoals]
    rw [List.map_append]
    congr 1
    · apply List.map_congr_left
      intro g2 hg2
      have hwf2 : g2.ctx.wfb m.heap.length = true :=
        List.all_eq_true.mp hwf g2 (by rw [hgoals]; exact List.mem_append_left _ hg2)
      rw [deref_append hwf2]
    · rw [List.map_map]
      apply List.map_congr_left
      intro j hj
      have hjk : j < k := List.mem_range.mp hj
      simp only [Function.comp, CtxRef.deref]
      rw [getD_append_offset]
      simp [List.getD, List.getElem?_map, List.getElem?_range hjk]
  · intro m t ht
    unfold Lemma.cases
    rw [ht]
    rfl

/-- Claim C7 witness: the three behaviours at concrete machines — a
boolean scrutinee, a two-constructor datatype scrutinee, and an integer
scrutinee. -/
theorem C7_witness :
    ((Lemma.cases (Lemma.init (.boolVal true)) (.const "b" .bool)).state.visGoals
      = [([], [.eq (.const "b" .bool) (.boolVal true)], .boolVal true),
         ([], [.eq (.const "b" .bool) (.boolVal false)], .boolVal true)]) ∧
    ((Lemma.cases (Lemma.init (.boolVal true)) (.const "x" (.dt "MyNat" 2))).state.visGoals
      = [([], [.eq (.recognizer 1 (.const "x" (.dt "MyNat" 2))) (.boolVal true)], .boolVal true),
         ([], [.eq (.recognizer 0 (.const "x" (.dt "MyNat" 2))) (.boolVal true)], .boolVal true)]) ∧
    (Lemma.cases (Lemma.init (.boolVal true)) (.intVal 3)
      = .err "Cases failed. Not a bool or datatype" (Lemma.init (.boolVal true))) := by
  refine ⟨?_, ?_, ?_⟩
  · have h := (C7_cases_branches.1 (Lemma.init (.boolVal true)) []
      { sig := [], ctx := .heap 0, goal := .boolVal true } (.const "b" .bool)
      rfl rfl (by decide)).2
    rw [h]
    decide
  · have h := (C7_cases_branches.2.1 (Lemma.init (.boolVal true)) []
      { sig := [], ctx := .heap 0, goal := .boolVal true } (.const "x" (.dt "MyNat" 2))
      "MyNat" 2 rfl rfl (by decide)).2
    rw [h]
    decide
  · exact C7_cases_branches.2.2 (Lemma.init (.boolVal true)) (.intVal 3) rfl

/-!  ## Claim C3  -/

theorem state_mapVal {α β : Type} (f : α → β) (t : TRes α) :
    (t.mapVal f).state = t.state := by
  cases t <;> rfl

theorem fixes_frame (m : Lemma) :
    (Lemma.fixes m).state.heap = m.heap ∧ (Lemma.fixes m).state.pushed = m.pushed := by
  unfold Lemma.fixes
  split
  · exact ⟨rfl, rfl⟩
  · split
    · exact ⟨rfl, rfl⟩
    · exact ⟨rfl, rfl⟩

theorem intros_frame (m : Lemma) :
    (Lemma.intros m).state.heap.take m.heap.length = m.heap ∧
    (Lemma.intros m).state.pushed = m.pushed := by
  cases hL : m.goals.getLast? with
  | none =>
    simp [Lemma.intros, Lemma.top_goal, hL, Goal.empty, emptyGoalMarker, TRes.state,
      List.take_length]
  | some g =>
    have htop : m.top_goal = g := by simp [Lemma.top_goal, hL]
    cases hg : g.goal
    case forallE vs body =>
      have h := fixes_frame m
      have heq : Lemma.intros m = (m.fixes).mapVal (fun _ => ()) := by
        simp [Lemma.intros, htop, hg]
      rw [heq, state_mapVal, h.1, h.2, List.take_length]
      exact ⟨rfl, rfl⟩
    case or args =>
      cases args with
      | nil =>
        simp [Lemma.intros, htop, hg, hL, TRes.state, List.take_length]
      | cons a0 rest =>
        cases a0
        case not a =>
          cases hlen : (ExprList.cons (Expr.not a) rest).length == 2 with
          | true =>
            cases rest with
            | nil => simp [ExprList.length] at hlen
            | cons b es =>
              simp [Lemma.intros, htop, hg, hL, hlen, TRes.state, Lemma.alloc,
                List.take_left]
          | false =>
            simp [Lemma.intros, htop, hg, hL, hlen, TRes.state, Lemma.alloc,
              List.take_left]
        all_goals
          simp [Lemma.intros, htop, hg, hL, TRes.state, List.take_length]
    all_goals
      simp [Lemma.intros, htop, hg, hL, TRes.state, Lemma.alloc, List.take_left,
        List.take_length]

theorem deref_take {store store2 : List (List Expr)} {r : CtxRef}
    (hlen : store2.take store.length = store) (h : r.wfb store.length = true) :
    r.deref store2 = r.deref store := by
  cases r with
  | lit l => rfl
  | heap i =>
    simp only [CtxRef.wfb, decide_eq_true_eq] at h
    simp only [CtxRef.deref, List.getD, List.get?_eq_getElem?]
    rw [← hlen, List.getElem?_take_of_lt h]

/-- The Lemma obtained by stating `Implies(p, q)` and applying `intros`:
its single goal has the hypothesis `p` in a context list shared with
nothing yet. -/
def introPQ : Lemma :=
  (Lemma.intros (Lemma.init (.implies (.const "p" .bool) (.const "q" .bool)))).state

/-- Claim C3 counterexample: the claim that after `push` no tactic call
affects the snapshot and `pop` restores the visible state exactly is
false for `clear`: on the concrete Lemma for `Implies(p, q)` after
`intros`, the sequence push, clear(0), pop does not restore the visible
state — `clear` mutated the context list that the snapshot shares, so
the hypothesis `p` is gone after the pop. -/
theorem C3_counterexample :
    (Lemma.pop ((Lemma.clear (Lemma.push introPQ) 0).state)).state.visible
      ≠ introPQ.visible := by
  decide

/-- Claim C3 (amended): a push, then `intros` (a tactic that replaces
goals non-destructively, allocating fresh context lists rather than
mutating shared ones), then pop is the identity on the visible state
(goal stack with contexts dereferenced, plus collected certificates),
whether the tactic succeeded or failed; `clear`, by contrast, mutates
the context list of the top goal in place, which the snapshot shares,
so a push/clear/pop round trip can change the visible state. -/
theorem C3_push_intros_pop_roundtrip (m : Lemma) (hwf : m.refsWF = true) :
    (Lemma.pop ((Lemma.intros (Lemma.push m)).state)).state.visible = m.visible := by
  have hframe := intros_frame (Lemma.push m)
  generalize hmi : (Lemma.intros (Lemma.push m)).state = mi at hframe ⊢
  have htake : mi.heap.take m.heap.length = m.heap := hframe.1
  have hpushed : mi.pushed = (m.goals, m.lemmas) :: m.pushed := hframe.2
  have hpop : Lemma.pop mi =
      .ok { mi with goals := m.goals, lemmas := m.lemmas, pushed := m.pushed }
        (Lemma.top_goal { mi with goals := m.goals, lemmas := m.lemmas,
                                  pushed := m.pushed }) := by
    unfold Lemma.pop
    rw [hpushed]
  rw [hpop]
  simp only [TRes.state, Lemma.visible, Lemma.visGoals]
  congr 1
  apply List.map_congr_left
  intro g hg2
  have hwfg : g.ctx.wfb m.heap.length = true := List.all_eq_true.mp hwf g hg2
  rw [deref_take htake hwfg]

/-- Claim C3 witness: the round trip at the concrete Lemma for
`Implies(p, q)` after `intros`. -/
theorem C3_witness :
    (Lemma.pop ((Lemma.intros (Lemma.push introPQ)).state)).state.visible
      = introPQ.visible :=
  C3_push_intros_pop_roundtrip introPQ (by decide)

end KD
